import Mathlib

/-!
# Verification of `mkpdfs.py` (directory-to-PDF conversion pipeline)

Shallow embedding of the core of `src/python_src/mkpdfs.py`:

* paths are modelled as lists of nonempty segments (for an absolute path,
  the segments after the filesystem root `/`);
* modification timestamps are modelled as integers (only their order is
  ever used by the program);
* the external image decoder and the two PDF encoders are modelled as
  oracles (parameters of the embedded functions) recording whether the
  corresponding library call succeeds;
* exceptions are modelled with `Except` / explicit "raised" flags.

Each embedded definition mirrors the Python function of the same name.
-/

/-- The extension allow-list `IMAGE_EXTENSIONS` of `mkpdfs.py` (lines 38-49). -/
def IMAGE_EXTENSIONS : List String :=
  [".jpg", ".jpeg", ".png", ".gif", ".bmp", ".tif", ".tiff", ".webp", ".heic", ".heif"]

/-- `pathlib.PurePath.suffix` on a final path component, over the character
list of the name: the substring from the last `.` on, empty when the last
dot is the first character (hidden files like `.bashrc`) or the last
character, or when there is no dot. -/
def suffixChars (cs : List Char) : List Char :=
  match (cs.reverse).findIdx? (· = '.') with
  | none => []
  | some j =>
    let i := cs.length - 1 - j
    if 0 < i ∧ i < cs.length - 1 then cs.drop i else []

/-- `pathlib.PurePath.suffix` for a filename. -/
def fileSuffix (name : String) : String :=
  String.mk (suffixChars name.data)

/-- Python `str.lower()`, character by character (ASCII case folding — the
allow-list extensions are all ASCII). -/
def lowerString (s : String) : String :=
  String.mk (s.data.map Char.toLower)

/-- Eligibility test of `find_images` (line 92): a directory entry is an
eligible image iff it is a regular file and its case-folded extension is in
the allow-list. `isFile` is the filesystem oracle for `entry.is_file()`. -/
def isEligibleImage (isFile : String → Bool) (name : String) : Bool :=
  isFile name && IMAGE_EXTENSIONS.contains (lowerString (fileSuffix name))

/-- Python's string comparison (`sorted` key for same-directory paths):
lexicographic by code point, i.e. the order on the character lists. It
agrees with Mathlib's `≤` on `String` (`String.le_iff_toList_le`) but is
structurally computable. -/
def nameLe (a b : String) : Prop := a.data ≤ b.data

instance : DecidableRel nameLe :=
  fun a b => (inferInstance : Decidable (a.data ≤ b.data))

instance : IsTotal String nameLe := ⟨fun a b => le_total a.data b.data⟩

instance : IsTrans String nameLe :=
  ⟨fun _ _ _ => le_trans (α := List Char)⟩

instance : IsAntisymm String nameLe :=
  ⟨fun _ _ h1 h2 => String.ext (le_antisymm h1 h2)⟩

/-- `find_images` (lines 88-94): sort the directory listing
lexicographically (Python `sorted(directory.iterdir())`), then keep the
regular files whose lowered suffix is in `IMAGE_EXTENSIONS`. -/
def find_images (isFile : String → Bool) (listing : List String) : List String :=
  (List.insertionSort nameLe listing).filter (isEligibleImage isFile)

/-- Configuration (`Config` dataclass, lines 52-55): the resolved traversal
root, the name of `root.resolve()` (used only when `root.name` is empty,
i.e. for a filesystem root — `parse_args` resolves `root`, so this is the
name of the same resolved path), and the optional output root. -/
structure Config where
  root : List String
  resolvedRootName : String
  out_root : Option (List String)
deriving Repr, DecidableEq

/-- `Path.name`: the last segment of a path, `""` for the filesystem root. -/
def pathName (p : List String) : String :=
  (p.getLast?).getD ""

/-- `cfg.root.name or cfg.root.resolve().name` (Python `or`: the first
operand unless it is the empty string). -/
def rootBase (cfg : Config) : String :=
  if pathName cfg.root = "" then cfg.resolvedRootName else pathName cfg.root

/-- `directory.relative_to(root)` (line 100): the remaining segments when
`root`'s segments lead `directory`'s, `none` (a raised `ValueError`)
otherwise. -/
def relativeTo : List String → List String → Option (List String)
  | dir, [] => some dir
  | [], _ :: _ => none
  | d :: ds, r :: rs => if r = d then relativeTo ds rs else none

/-- `resolve_outfile` (lines 97-115). With an output root: the directory's
segments relative to the root (the empty relative path `.` replaced by the
root's base name, an out-of-root directory falling back to its own name)
are joined with `_` after dropping empty parts, giving
`out_root/<name>.pdf`. Without: `<directory>/<base>.pdf` with fallbacks to
the root's base name for degenerate directory names. -/
def resolve_outfile (directory : List String) (cfg : Config) : List String :=
  match cfg.out_root with
  | some outRoot =>
    let rel_parts : List String :=
      match relativeTo directory cfg.root with
      | some [] => [rootBase cfg]
      | some parts => parts
      | none => [pathName directory]
    let name := String.intercalate "_" (rel_parts.filter (fun part => part ≠ ""))
    outRoot ++ [(if name = "" then pathName directory else name) ++ ".pdf"]
  | none =>
    let base := pathName directory
    let base := if base = "" ∨ directory = [] then rootBase cfg else base
    let base := if base = "." ∨ base = "/" then rootBase cfg else base
    directory ++ [base ++ ".pdf"]

/-- `max(...)` over a nonempty list of timestamps, as Python's `max`
(head-seeded left fold). -/
def maxMtime (t : Int) (ts : List Int) : Int :=
  ts.foldl max t

/-- `is_up_to_date` (lines 118-123). The artifact is modelled as
`Option Int`: `none` when `outfile.exists()` is false, `some m` when it
exists with modification time `m`; `stat` gives each image's mtime. -/
def is_up_to_date (stat : String → Int) (images : List String) (outfile : Option Int) : Bool :=
  match outfile with
  | none => false
  | some pdf_mtime =>
    match images.map stat with
    | [] => false   -- unreachable: Python `max(())` raises; the caller guarantees nonempty
    | t :: ts => decide (maxMtime t ts ≤ pdf_mtime)

/-- A decoded image, as far as the pipeline inspects it: its color mode
(`img.mode` after `ImageOps.exif_transpose`). -/
structure DecodedImage where
  mode : String
deriving Repr, DecidableEq

/-- The color-mode coercion of `prepare_page` (lines 131-134):
`if img.mode not in ("RGB", "L"): img = img.convert("RGB")
 elif img.mode != "RGB": img = img.convert("RGB")`. -/
def coerceMode (m : String) : String :=
  if ¬(m = "RGB" ∨ m = "L") then "RGB"
  else if m ≠ "RGB" then "RGB"
  else m

/-- Python `"%05d" % n` (the `f"{index:05d}"` of line 127). -/
def pad5 (n : Nat) : String :=
  let s := toString n
  if s.length < 5 then String.mk (List.replicate (5 - s.length) '0') ++ s else s

/-- A staged, normalized page: its path in the staging directory, the
source image it was produced from, and the color mode it was saved with. -/
structure Page where
  path : String
  source : String
  mode : String
deriving Repr, DecidableEq

/-- `prepare_page` (lines 126-138). `decode` models `Image.open` composed
with `ImageOps.exif_transpose`; `none` models `UnidentifiedImageError`, in
which case a `RuntimeError` naming the source is raised; otherwise the
mode-coerced image is saved as `tmpdir/<index:05d>.jpg` and that path is
returned. -/
def prepare_page (decode : String → Option DecodedImage) (source : String)
    (tmpdir : String) (index : Nat) : Except String Page :=
  let tmp_path := tmpdir ++ "/" ++ pad5 index ++ ".jpg"
  match decode source with
  | none => Except.error ("画像を開けませんでした: " ++ source)
  | some img => Except.ok { path := tmp_path, source := source, mode := coerceMode img.mode }

/-- The page-staging loop of `process_directory` (lines 185-187): normalize
each image in order with its zero-based index; the first failure aborts the
directory. -/
def preparePages (decode : String → Option DecodedImage) (tmpdir : String) :
    List String → Nat → Except String (List Page)
  | [], _ => Except.ok []
  | img :: rest, idx =>
    match prepare_page decode img tmpdir idx with
    | Except.error e => Except.error e
    | Except.ok p =>
      match preparePages decode tmpdir rest (idx + 1) with
      | Except.error e => Except.error e
      | Except.ok ps => Except.ok (p :: ps)

/-- Content of the artifact file at `outfile`, as distinguishable states of
the filesystem after `write_pdf_from_images` ran. -/
inductive Content (α : Type) where
  /-- content that was already present before this rebuild -/
  | preexisting (tag : String)
  /-- the file was truncated by `open(outfile, "wb")` and nothing was written -/
  | truncated
  /-- PDF produced by `img2pdf.convert`, pages in the given order -/
  | primaryPdf (pages : List α)
  /-- PDF produced by the Pillow fallback (`head.save(..., append_images=tail)`) -/
  | fallbackPdf (pages : List α)
  /-- the fallback `save` call itself raised, leaving a partial write -/
  | partialWrite (pages : List α)
deriving Repr, DecidableEq

/-- Oracles for the external encoders used by `write_pdf_from_images`:
whether the `img2pdf` import succeeded, whether `img2pdf.convert` succeeds
on a given page list, whether `Image.open(path).convert("RGB")` succeeds on
a staged page, and whether the final `head.save` succeeds. -/
structure AsmEnv (α : Type) where
  img2pdfAvailable : Bool
  convertOk : List α → Bool
  decodeOk : α → Bool
  saveOk : Bool

/-- Outcome of one `write_pdf_from_images` call: the artifact file's state,
whether an exception escaped to the caller, which strategies ran, and which
decoded images the fallback opened and closed. -/
structure WriteOutcome (α : Type) where
  artifact : Option (Content α)
  raised : Bool
  triedPrimary : Bool
  usedFallback : Bool
  opened : List α
  closed : List α
deriving Repr, DecidableEq

/-- The fallback's decode loop (lines 160-162): open pages in order until
one fails; returns the successfully opened pages and the first failure. -/
def openAll (decodeOk : α → Bool) : List α → List α × Option α
  | [] => ([], none)
  | p :: ps =>
    if decodeOk p then
      let rest := openAll decodeOk ps
      (p :: rest.1, rest.2)
    else ([], some p)

/-- The Pillow fallback of `write_pdf_from_images` (lines 158-167): decode
the pages in order (the first decode failure raises, the `finally` closing
the images opened so far, the artifact file untouched by this loop); once
all are open, `head.save(outfile, ..., append_images=tail)` writes the
first page as document root with the rest appended in order, a raising
`save` leaving a partial write; the `finally` closes every opened image in
every case. `artNow` is the artifact state on entry, `tried` whether the
primary strategy ran first. -/
def pillowFallback (env : AsmEnv α) (pages : List α) (artNow : Option (Content α))
    (tried : Bool) : WriteOutcome α :=
  let oc := openAll env.decodeOk pages
  match oc.2 with
  | some _ => ⟨artNow, true, tried, true, oc.1, oc.1⟩
  | none =>
    if env.saveOk then
      ⟨some (Content.fallbackPdf pages), false, tried, true, oc.1, oc.1⟩
    else
      ⟨some (Content.partialWrite pages), true, tried, true, oc.1, oc.1⟩

/-- `write_pdf_from_images` (lines 141-167). Empty input: return without
touching the file. If `img2pdf` is available, `open(outfile, "wb")`
truncates the artifact before `img2pdf.convert` runs; on success the
converted bytes are written, while any exception from `convert` is caught
and the Pillow fallback runs over the now-truncated file. Without
`img2pdf` the fallback runs directly on the unchanged artifact. -/
def write_pdf_from_images (env : AsmEnv α) (processed_images : List α)
    (artifact : Option (Content α)) : WriteOutcome α :=
  match processed_images with
  | [] => ⟨artifact, false, false, false, [], []⟩
  | _ :: _ =>
    if env.img2pdfAvailable then
      if env.convertOk processed_images then
        ⟨some (Content.primaryPdf processed_images), false, true, false, [], []⟩
      else
        pillowFallback env processed_images (some Content.truncated) true
    else
      pillowFallback env processed_images artifact false

/-- Whether the Pillow fallback fails on a page list: some page fails to
decode, or the final `save` raises. -/
def fallbackFails (env : AsmEnv α) (pages : List α) : Prop :=
  (openAll env.decodeOk pages).2.isSome ∨ env.saveOk = false

instance (env : AsmEnv α) (pages : List α) : Decidable (fallbackFails env pages) := by
  unfold fallbackFails; infer_instance

/-- The rebuild step of `process_directory` (lines 183-188): stage every
image in classification order; a staging failure (decode error) raises
before `write_pdf_from_images` is ever called, so the artifact is untouched;
otherwise the assembler runs. Returns the artifact state and whether an
exception escaped the directory's processing. -/
def rebuildDir (decode : String → Option DecodedImage) (env : AsmEnv Page)
    (images : List String) (tmpdir : String) (artifact : Option (Content Page)) :
    Option (Content Page) × Bool :=
  match preparePages decode tmpdir images 0 with
  | Except.error _ => (artifact, true)
  | Except.ok processed =>
    let r := write_pdf_from_images env processed artifact
    (r.artifact, r.raised)

/-- The traversal loop of `main` (lines 205-210): every directory is
processed inside `try/except Exception`; a failure is recorded (logged) and
the loop continues; the function then returns exit status `0`. The result
pairs each visited directory with the error its processing raised, if any. -/
def mainLoop (process : δ → Except ε Unit) (dirs : List δ) : List (δ × Option ε) × Int :=
  (dirs.map (fun d =>
    (d, match process d with
        | Except.ok _ => none
        | Except.error e => some e)), 0)

/-- `main` (lines 198-210) after `parse_args`: with an existing root the
traversal runs to completion and the process exits 0; a missing root makes
`parse_args` call `parser.error`, exiting with a usage error before any
processing (`none` here). -/
def mainRun (rootExists : Bool) (process : δ → Except ε Unit) (dirs : List δ) :
    Option (List (δ × Option ε) × Int) :=
  if rootExists then some (mainLoop process dirs) else none

/-! ## Helper lemmas -/

lemma foldl_max_le_iff (l : List Int) (a b : Int) :
    l.foldl max a ≤ b ↔ a ≤ b ∧ ∀ x ∈ l, x ≤ b := by
  induction l generalizing a with
  | nil => simp
  | cons x xs ih =>
    simp only [List.foldl_cons, ih, max_le_iff, List.mem_cons]
    constructor
    · rintro ⟨⟨ha, hx⟩, hall⟩
      exact ⟨ha, fun y hy => hy.elim (fun h => h ▸ hx) (hall y)⟩
    · rintro ⟨ha, hall⟩
      exact ⟨⟨ha, hall x (Or.inl rfl)⟩, fun y hy => hall y (Or.inr hy)⟩

lemma coerceMode_eq_RGB (m : String) : coerceMode m = "RGB" := by
  unfold coerceMode
  split_ifs with h1 h2 <;> simp_all

lemma length_pos_of_ne_empty (a : String) (h : a ≠ "") : 0 < a.length := by
  rcases a with ⟨d⟩
  cases d with
  | nil => exact absurd (by decide) h
  | cons c cs => simp

lemma append_ne_empty_left (a b : String) (h : a ≠ "") : a ++ b ≠ "" := by
  have hpos := length_pos_of_ne_empty a h
  intro hc
  have hlen : (a ++ b).length = 0 := by rw [hc]; simp
  simp [String.length_append] at hlen
  omega

lemma intercalate_go_ne_empty (s : String) (l : List String) :
    ∀ acc : String, acc ≠ "" → String.intercalate.go acc s l ≠ "" := by
  induction l with
  | nil => intro acc h; simpa [String.intercalate.go] using h
  | cons a as ih =>
    intro acc h
    simp only [String.intercalate.go]
    exact ih _ (append_ne_empty_left _ _ (append_ne_empty_left _ _ h))

lemma intercalate_cons_ne_empty (s a : String) (l : List String) (h : a ≠ "") :
    String.intercalate s (a :: l) ≠ "" := by
  simp only [String.intercalate]
  exact intercalate_go_ne_empty s l a h

lemma relativeTo_append (root segs : List String) :
    relativeTo (root ++ segs) root = some segs := by
  induction root with
  | nil => cases segs <;> rfl
  | cons r rs ih => simp [relativeTo, ih]

lemma find_images_perm (f : String → Bool) (l : List String) :
    List.Perm (find_images f l) (l.filter (isEligibleImage f)) :=
  (List.perm_insertionSort nameLe l).filter _

lemma find_images_sorted (f : String → Bool) (l : List String) :
    (find_images f l).Sorted nameLe :=
  (List.sorted_insertionSort nameLe l).filter _

lemma find_images_sorted_le (f : String → Bool) (l : List String) :
    (find_images f l).Sorted (· ≤ ·) :=
  (find_images_sorted f l).imp fun hab => String.le_iff_toList_le.mpr hab

lemma preparePages_sources (decode : String → Option DecodedImage) (tmpdir : String)
    (hdec : ∀ img, (decode img).isSome = true) :
    ∀ (imgs : List String) (idx : Nat),
      ∃ pages, preparePages decode tmpdir imgs idx = Except.ok pages
        ∧ pages.map Page.source = imgs := by
  intro imgs
  induction imgs with
  | nil => exact fun idx => ⟨[], rfl, rfl⟩
  | cons i rest ih =>
    intro idx
    obtain ⟨pages, hok, hsrc⟩ := ih (idx + 1)
    have hd := hdec i
    cases hdi : decode i with
    | none => rw [hdi] at hd; simp at hd
    | some img =>
      refine ⟨{ path := tmpdir ++ "/" ++ pad5 idx ++ ".jpg",
                source := i, mode := coerceMode img.mode } :: pages, ?_, ?_⟩
      · simp [preparePages, prepare_page, hdi, hok]
      · simp [hsrc]

lemma suffixChars_append_pdf (base : List Char) (h : base ≠ []) :
    suffixChars (base ++ ['.', 'p', 'd', 'f']) = ['.', 'p', 'd', 'f'] := by
  have hbl : 0 < base.length := List.length_pos.mpr h
  have hidx : ((base ++ ['.', 'p', 'd', 'f']).reverse).findIdx? (· = '.') = some 3 := by
    rw [List.reverse_append]
    simp [List.findIdx?_cons]
  have hlen : (base ++ ['.', 'p', 'd', 'f']).length = base.length + 4 := by simp
  simp only [suffixChars, hidx, hlen]
  rw [if_pos (show 0 < base.length + 4 - 1 - 3 ∧ base.length + 4 - 1 - 3 < base.length + 4 - 1
    by omega)]
  rw [show base.length + 4 - 1 - 3 = base.length by omega]
  exact List.drop_left base _

lemma eligible_pdf_false (isFile : String → Bool) (base : String) (h : base ≠ "") :
    isEligibleImage isFile (base ++ ".pdf") = false := by
  have hb : base.data ≠ [] := by
    intro hc
    exact h (String.ext hc)
  have hsuf : fileSuffix (base ++ ".pdf") = ".pdf" := by
    unfold fileSuffix
    rw [String.data_append]
    rw [show (".pdf" : String).data = ['.', 'p', 'd', 'f'] from rfl]
    rw [suffixChars_append_pdf base.data hb]
  unfold isEligibleImage
  rw [hsuf]
  have hc : IMAGE_EXTENSIONS.contains (lowerString ".pdf") = false := by decide
  rw [hc, Bool.and_false]

/-! ## Claims -/

/-- C2: for every non-empty list of input images, `is_up_to_date` reports
stale (`false`) when the artifact does not exist, and otherwise reports
up-to-date iff the artifact's mtime is ≥ the maximum input mtime — i.e. iff
it is ≥ every input's mtime, the comparison being non-strict. -/
theorem c2_freshness (stat : String → Int) (images : List String) (pdfM : Int)
    (h : images ≠ []) :
    is_up_to_date stat images none = false
    ∧ (is_up_to_date stat images (some pdfM) = true ↔ ∀ img ∈ images, stat img ≤ pdfM) := by
  refine ⟨rfl, ?_⟩
  obtain ⟨i, rest, rfl⟩ := List.exists_cons_of_ne_nil h
  simp only [is_up_to_date, List.map_cons, maxMtime, decide_eq_true_eq]
  rw [foldl_max_le_iff]
  simp [List.mem_map]

theorem c2_witness :
    is_up_to_date (fun _ => (3 : Int)) ["a", "b"] none = false
    ∧ (is_up_to_date (fun _ => (3 : Int)) ["a", "b"] (some 3) = true
        ↔ ∀ img ∈ ["a", "b"], (fun _ => (3 : Int)) img ≤ 3) :=
  c2_freshness (fun _ => 3) ["a", "b"] 3 (by decide)

/-- C3 counterexample: a decodable single-channel grayscale image (mode
`"L"`) is not persisted single-band: `prepare_page` coerces it to
three-channel `"RGB"`, because the `elif img.mode != "RGB"` branch of
lines 133-134 converts `"L"` as well. -/
theorem c3_counterexample :
    prepare_page (fun _ => some ⟨"L"⟩) "scan.png" "/tmp" 0
      = Except.ok { path := "/tmp/00000.jpg", source := "scan.png", mode := "RGB" }
    ∧ ("RGB" : String) ≠ "L" := by
  exact ⟨rfl, by decide⟩

/-- C3 (amended): `prepare_page` coerces the color mode to three-channel
color whenever the decoded mode is not already `"RGB"` — grayscale `"L"`
included — so every successfully staged page is persisted as a
three-channel `"RGB"` JPEG. -/
theorem c3_all_pages_rgb (decode : String → Option DecodedImage)
    (source tmpdir : String) (index : Nat) (pg : Page)
    (h : prepare_page decode source tmpdir index = Except.ok pg) :
    pg.mode = "RGB" := by
  unfold prepare_page at h
  cases hd : decode source with
  | none => rw [hd] at h; exact absurd h (by simp)
  | some img =>
    rw [hd] at h
    simp only [Except.ok.injEq] at h
    rw [← h]
    exact coerceMode_eq_RGB img.mode

theorem c3_witness :
    ({ path := "/tmp/00000.jpg", source := "scan.png", mode := "RGB" } : Page).mode = "RGB" :=
  c3_all_pages_rgb (fun _ => some ⟨"L"⟩) "scan.png" "/tmp" 0 _ rfl

/-- C5: `prepare_page` fails iff the source cannot be decoded, and then
with the `RuntimeError` message naming the offending source path; on a
successful decode it raises nothing and returns the staged page at
`tmpdir/<index:05d>.jpg`. -/
theorem c5_decode_error (decode : String → Option DecodedImage)
    (source tmpdir : String) (index : Nat) :
    (decode source = none ↔
        prepare_page decode source tmpdir index
          = Except.error ("画像を開けませんでした: " ++ source))
    ∧ (∀ img, decode source = some img →
        prepare_page decode source tmpdir index
          = Except.ok { path := tmpdir ++ "/" ++ pad5 index ++ ".jpg",
                        source := source, mode := coerceMode img.mode }) := by
  constructor
  · cases hd : decode source <;> simp [prepare_page, hd]
  · intro img hd
    simp [prepare_page, hd]

theorem c5_witness :
    prepare_page (fun _ => some ⟨"P"⟩) "img.png" "/t" 1
      = Except.ok { path := "/t" ++ "/" ++ pad5 1 ++ ".jpg",
                    source := "img.png", mode := coerceMode "P" } :=
  (c5_decode_error (fun _ => some ⟨"P"⟩) "img.png" "/t" 1).2 ⟨"P"⟩ rfl

/-- C1: with an output root configured, `resolve_outfile` maps a directory
`root/segs…` to `out_root/<segs joined with _>.pdf`, the root directory
itself using the root's own base name; with no output root it returns the
in-place path `<directory>/<directory base name>.pdf`. Hypotheses: path
segments are nonempty and the root/directory are ordinary named
directories (not a filesystem root, whose name degenerates to the spelled
fallbacks of lines 111-114). -/
theorem c1_resolve_outfile (root outRoot segs dir : List String) (rname : String)
    (hsegs : ∀ s ∈ segs, s ≠ "") (hroot : pathName root ≠ "")
    (hdir1 : pathName dir ≠ "") (hdir2 : pathName dir ≠ ".") (hdir3 : pathName dir ≠ "/") :
    resolve_outfile (root ++ segs) ⟨root, rname, some outRoot⟩
      = outRoot ++ [(if segs = [] then pathName root
                     else String.intercalate "_" segs) ++ ".pdf"]
    ∧ resolve_outfile dir ⟨root, rname, none⟩ = dir ++ [pathName dir ++ ".pdf"] := by
  refine ⟨?_, ?_⟩
  · cases segs with
    | nil =>
      have h1 : relativeTo (root ++ ([] : List String)) root = some [] :=
        relativeTo_append root []
      simp only [resolve_outfile, h1, rootBase]
      simp [hroot, String.intercalate, String.intercalate.go]
    | cons s rest =>
      have hs : s ≠ "" := hsegs s (List.mem_cons_self s rest)
      have h1 : relativeTo (root ++ s :: rest) root = some (s :: rest) :=
        relativeTo_append root (s :: rest)
      have hfil : (s :: rest).filter (fun part => part ≠ "") = s :: rest := by
        rw [List.filter_eq_self]
        intro a ha
        simpa using hsegs a ha
      have hne : String.intercalate "_" (s :: rest) ≠ "" :=
        intercalate_cons_ne_empty _ _ _ hs
      simp only [resolve_outfile, h1, hfil]
      simp [hne]
  · have h1 : ¬(pathName dir = "" ∨ dir = []) := by
      rintro (h | rfl)
      · exact hdir1 h
      · exact hdir1 rfl
    simp only [resolve_outfile]
    simp [h1, hdir2, hdir3]

theorem c1_witness :
    resolve_outfile (["photos"] ++ ["2020", "trip"]) ⟨["photos"], "photos", some ["pdfs"]⟩
      = ["pdfs"] ++ [(if (["2020", "trip"] : List String) = [] then pathName ["photos"]
                      else String.intercalate "_" ["2020", "trip"]) ++ ".pdf"]
    ∧ resolve_outfile ["photos", "2020", "trip"] ⟨["photos"], "photos", none⟩
      = ["photos", "2020", "trip"] ++ [pathName ["photos", "2020", "trip"] ++ ".pdf"] :=
  c1_resolve_outfile ["photos"] ["pdfs"] ["2020", "trip"] ["photos", "2020", "trip"] "photos"
    (by decide) (by decide) (by decide) (by decide) (by decide)

/-- C10: with an output root configured, `resolve_outfile` is not
injective: the distinct directories `r/a_b` and `r/a/b` under root `r` both
resolve to `o/a_b.pdf`, so in one run the later-processed one overwrites
the earlier one's artifact. -/
theorem c10_collision :
    resolve_outfile ["r", "a_b"] ⟨["r"], "r", some ["o"]⟩
      = resolve_outfile ["r", "a", "b"] ⟨["r"], "r", some ["o"]⟩
    ∧ (["r", "a_b"] : List String) ≠ ["r", "a", "b"] := by
  constructor
  · rfl
  · decide

/-- C6: on a non-empty page sequence, `write_pdf_from_images` tries the
primary `img2pdf` conversion first whenever the module is available, uses
the Pillow fallback exactly when the primary is unavailable or raises, a
successful fallback writes the pages in order (first page as root, rest
appended), an error escapes to the caller iff both the primary was
unavailable-or-failing and the fallback failed, and every image the
fallback opened is closed regardless of outcome. -/
theorem c6_two_tier_assembly (env : AsmEnv α) (pages : List α)
    (art : Option (Content α)) (h : pages ≠ []) :
    (env.img2pdfAvailable = true →
        (write_pdf_from_images env pages art).triedPrimary = true)
    ∧ ((write_pdf_from_images env pages art).usedFallback = true
        ↔ (env.img2pdfAvailable = false ∨ env.convertOk pages = false))
    ∧ ((write_pdf_from_images env pages art).raised = true
        ↔ ((env.img2pdfAvailable = false ∨ env.convertOk pages = false)
            ∧ fallbackFails env pages))
    ∧ ((env.img2pdfAvailable = false ∨ env.convertOk pages = false) →
        ¬fallbackFails env pages →
        (write_pdf_from_images env pages art).artifact
          = some (Content.fallbackPdf pages))
    ∧ (write_pdf_from_images env pages art).closed
        = (write_pdf_from_images env pages art).opened := by
  obtain ⟨p, ps, rfl⟩ := List.exists_cons_of_ne_nil h
  by_cases hA : env.img2pdfAvailable = true
  · by_cases hC : env.convertOk (p :: ps) = true
    · simp [write_pdf_from_images, hA, hC]
    · rcases hoc : openAll env.decodeOk (p :: ps) with ⟨op, fail⟩
      cases fail <;> cases hS : env.saveOk <;>
        simp_all [write_pdf_from_images, pillowFallback, fallbackFails, hoc]
  · rcases hoc : openAll env.decodeOk (p :: ps) with ⟨op, fail⟩
    cases fail <;> cases hS : env.saveOk <;>
      simp_all [write_pdf_from_images, pillowFallback, fallbackFails, hoc]

theorem c6_witness :
    (let env : AsmEnv String := ⟨true, fun _ => false, fun _ => true, true⟩
     (env.img2pdfAvailable = true →
        (write_pdf_from_images env ["00000.jpg"] none).triedPrimary = true)
     ∧ ((write_pdf_from_images env ["00000.jpg"] none).usedFallback = true
         ↔ (env.img2pdfAvailable = false ∨ env.convertOk ["00000.jpg"] = false))
     ∧ ((write_pdf_from_images env ["00000.jpg"] none).raised = true
         ↔ ((env.img2pdfAvailable = false ∨ env.convertOk ["00000.jpg"] = false)
             ∧ fallbackFails env ["00000.jpg"]))
     ∧ ((env.img2pdfAvailable = false ∨ env.convertOk ["00000.jpg"] = false) →
         ¬fallbackFails env ["00000.jpg"] →
         (write_pdf_from_images env ["00000.jpg"] none).artifact
           = some (Content.fallbackPdf ["00000.jpg"]))
     ∧ (write_pdf_from_images env ["00000.jpg"] none).closed
         = (write_pdf_from_images env ["00000.jpg"] none).opened) :=
  c6_two_tier_assembly ⟨true, fun _ => false, fun _ => true, true⟩ ["00000.jpg"] none
    (by decide)

/-- C4 counterexample: a rebuild of a directory with an existing artifact
is not atomic. With `img2pdf` available but its conversion failing and the
Pillow fallback failing to decode the staged page, the previously existing
artifact ends up truncated by `open(outfile, "wb")` rather than untouched. -/
theorem c4_counterexample :
    rebuildDir (fun _ => some ⟨"RGB"⟩) ⟨true, fun _ => false, fun _ => false, true⟩
        ["a.jpg"] "/tmp" (some (Content.preexisting "old"))
      = (some Content.truncated, true)
    ∧ (some (Content.truncated) : Option (Content Page))
        ≠ some (Content.preexisting "old") := by
  constructor
  · rfl
  · decide

/-- C4 (amended): a decode failure during page normalization occurs before
`write_pdf_from_images` is called, so it leaves the previously existing
artifact untouched; but the primary strategy truncates the artifact by
opening it before converting, so when the primary raises and the fallback
also fails, the processing raises and whatever the artifact now holds, it
is no longer the pre-existing content. -/
theorem c4_failure_states (decode : String → Option DecodedImage) (env : AsmEnv Page)
    (images : List String) (tmpdir : String) (art : Option (Content Page)) :
    ((∃ e, preparePages decode tmpdir images 0 = Except.error e) →
        rebuildDir decode env images tmpdir art = (art, true))
    ∧ (∀ processed tag, preparePages decode tmpdir images 0 = Except.ok processed →
        processed ≠ [] → env.img2pdfAvailable = true →
        env.convertOk processed = false → fallbackFails env processed →
        (rebuildDir decode env images tmpdir art).2 = true
        ∧ (rebuildDir decode env images tmpdir art).1
            ≠ some (Content.preexisting tag)) := by
  constructor
  · rintro ⟨e, he⟩
    simp [rebuildDir, he]
  · intro processed tag hok hne hA hC hfb
    obtain ⟨p, ps, rfl⟩ := List.exists_cons_of_ne_nil hne
    rcases hoc : openAll env.decodeOk (p :: ps) with ⟨op, fail⟩
    have hfb' : fail.isSome = true ∨ env.saveOk = false := by
      rcases hfb with hfb | hfb
      · left; rw [hoc] at hfb; exact hfb
      · right; exact hfb
    rcases hfb' with hfail | hS
    · cases fail with
      | none => simp at hfail
      | some q =>
        simp [rebuildDir, hok, write_pdf_from_images, pillowFallback, hA, hC, hoc]
    · cases fail with
      | none =>
        simp [rebuildDir, hok, write_pdf_from_images, pillowFallback, hA, hC, hoc, hS]
      | some q =>
        simp [rebuildDir, hok, write_pdf_from_images, pillowFallback, hA, hC, hoc]

theorem c4_witness :
    rebuildDir (fun _ => none) ⟨true, fun _ => true, fun _ => true, true⟩
        ["a.jpg"] "/t" (some (Content.preexisting "old"))
      = (some (Content.preexisting "old"), true) :=
  (c4_failure_states (fun _ => none) ⟨true, fun _ => true, fun _ => true, true⟩
      ["a.jpg"] "/t" (some (Content.preexisting "old"))).1
    ⟨"画像を開けませんでした: " ++ "a.jpg", rfl⟩

/-- C8: after a successful `parse_args` (the root exists), the traversal
loop visits every directory, records a per-directory failure instead of
letting it escape, and `main` returns exit status `0` regardless of how
many directories failed. -/
theorem c8_best_effort_exit (process : δ → Except ε Unit) (dirs : List δ)
    (rootExists : Bool) (h : rootExists = true) :
    mainRun rootExists process dirs = some (mainLoop process dirs)
    ∧ (mainLoop process dirs).2 = 0
    ∧ (mainLoop process dirs).1.map Prod.fst = dirs := by
  refine ⟨by simp [mainRun, h], rfl, ?_⟩
  induction dirs with
  | nil => rfl
  | cons d ds ih =>
    simp only [mainLoop] at ih ⊢
    simp [ih]

/-- C7: the eligible images of a directory are exactly its direct child
regular files whose case-folded extension is in the allow-list, in
lexicographic filename order; the staged pages handed to the assembler
(and hence the PDF's pages) follow that same order; and the spec's example
`b.png, a.jpg, c.gif` sorts to `a.jpg, b.png, c.gif`. -/
theorem c7_lex_order (isFile : String → Bool) (listing : List String)
    (decode : String → Option DecodedImage) (tmpdir : String)
    (hdec : ∀ img, (decode img).isSome = true) :
    (∀ n, n ∈ find_images isFile listing
        ↔ (n ∈ listing ∧ isFile n = true
            ∧ IMAGE_EXTENSIONS.contains (lowerString (fileSuffix n)) = true))
    ∧ (find_images isFile listing).Sorted (· ≤ ·)
    ∧ (∃ pages, preparePages decode tmpdir (find_images isFile listing) 0 = Except.ok pages
        ∧ pages.map Page.source = find_images isFile listing)
    ∧ find_images (fun _ => true) ["b.png", "a.jpg", "c.gif"]
        = ["a.jpg", "b.png", "c.gif"] := by
  refine ⟨?_, find_images_sorted_le isFile listing,
    preparePages_sources decode tmpdir hdec _ 0, by decide⟩
  intro n
  rw [(find_images_perm isFile listing).mem_iff, List.mem_filter]
  simp [isEligibleImage, and_assoc]

theorem c7_witness :
    (∀ n, n ∈ find_images (fun _ => true) ["b.png", "a.jpg", "c.gif"]
        ↔ (n ∈ ["b.png", "a.jpg", "c.gif"] ∧ (fun _ => true) n = true
            ∧ IMAGE_EXTENSIONS.contains (lowerString (fileSuffix n)) = true))
    ∧ (find_images (fun _ => true) ["b.png", "a.jpg", "c.gif"]).Sorted (· ≤ ·)
    ∧ (∃ pages,
        preparePages (fun _ => some ⟨"RGB"⟩) "/t"
            (find_images (fun _ => true) ["b.png", "a.jpg", "c.gif"]) 0
          = Except.ok pages
        ∧ pages.map Page.source = find_images (fun _ => true) ["b.png", "a.jpg", "c.gif"])
    ∧ find_images (fun _ => true) ["b.png", "a.jpg", "c.gif"]
        = ["a.jpg", "b.png", "c.gif"] :=
  c7_lex_order (fun _ => true) ["b.png", "a.jpg", "c.gif"]
    (fun _ => some ⟨"RGB"⟩) "/t" (fun _ => rfl)

/-- C9: a PDF artifact written in place (name `<base>.pdf`) has suffix
`.pdf`, which is not in the image allow-list, so adding it to a directory
listing anywhere leaves `find_images` unchanged: a previously produced
artifact is never picked up as an input image on a later run. -/
theorem c9_artifact_never_input (isFile : String → Bool) (l₁ l₂ : List String)
    (base : String) (h : base ≠ "") :
    IMAGE_EXTENSIONS.contains ".pdf" = false
    ∧ find_images isFile (l₁ ++ (base ++ ".pdf") :: l₂) = find_images isFile (l₁ ++ l₂) := by
  refine ⟨by decide, ?_⟩
  have hp : isEligibleImage isFile (base ++ ".pdf") = false := eligible_pdf_false isFile base h
  have p1 := find_images_perm isFile (l₁ ++ (base ++ ".pdf") :: l₂)
  have p2 : (l₁ ++ (base ++ ".pdf") :: l₂).filter (isEligibleImage isFile)
      = (l₁ ++ l₂).filter (isEligibleImage isFile) := by
    simp [List.filter_append, List.filter_cons, hp]
  rw [p2] at p1
  exact List.eq_of_perm_of_sorted (p1.trans (find_images_perm isFile (l₁ ++ l₂)).symm)
    (find_images_sorted _ _) (find_images_sorted _ _)

theorem c9_witness :
    IMAGE_EXTENSIONS.contains ".pdf" = false
    ∧ find_images (fun _ => true) (["a.jpg"] ++ ("trip" ++ ".pdf") :: ["b.png"])
        = find_images (fun _ => true) (["a.jpg"] ++ ["b.png"]) :=
  c9_artifact_never_input (fun _ => true) ["a.jpg"] ["b.png"] "trip" (by decide)

theorem c8_witness :
    (let process : String → Except String Unit :=
      fun d => if d = "bad" then Except.error "boom" else Except.ok ()
     mainRun true process ["good", "bad", "worse"]
       = some (mainLoop process ["good", "bad", "worse"])
     ∧ (mainLoop process ["good", "bad", "worse"]).2 = 0
     ∧ (mainLoop process ["good", "bad", "worse"]).1.map Prod.fst
         = ["good", "bad", "worse"]) :=
  c8_best_effort_exit
    (fun d => if d = "bad" then Except.error "boom" else Except.ok ())
    ["good", "bad", "worse"] true rfl
